import Mathlib

/-!
Shallow embedding of the peer-networking core of the `jvff/zebra` repository,
with theorems checking each claim of the specification against the code.

Machine integers from the source (`u32` timestamps, `usize` lengths) are
modelled as `Nat`; block hashes, transaction ids, outpoints and nullifiers are
modelled as `Nat` (hashes are treated as injective identifiers).  Fallible
code returns `Except`; stateful code is explicit state passing.
-/

/-! ## Syncer restart classifier (`zebrad/src/components/sync.rs`) -/

/-- `zebra_consensus::VerifyCheckpointError`, as used by
`ChainSync::should_restart_sync`.  Only the `AlreadyVerified { .. }` variant is
matched by name in `sync.rs`; the remaining variants of the enum (whose
defining module is outside the embedded core) are represented by
`otherCheckpointError` carrying their debug representation. -/
inductive VerifyCheckpointError : Type
  | alreadyVerified (height : Nat)
  | otherCheckpointError (debug : String)
deriving DecidableEq, Repr

/-- `zebra_consensus::BlockError`, as used by `ChainSync::should_restart_sync`.
`AlreadyInChain(_, _)` carries a block hash and a height in the source. -/
inductive BlockError : Type
  | alreadyInChain (hash height : Nat)
  | otherBlockError (debug : String)
deriving DecidableEq, Repr

/-- `zebra_consensus::VerifyBlockError`, as used by
`ChainSync::should_restart_sync`.  `Block { source }` wraps a `BlockError`;
`Commit` wraps a boxed error which the classifier only inspects through its
debug string, so the payload is modelled as that string. -/
inductive VerifyBlockError : Type
  | blockSource (source : BlockError)
  | commit (sourceDebug : String)
  | otherVerifyBlockError (debug : String)
deriving DecidableEq, Repr

/-- `zebra_consensus::chain::VerifyChainError`: either a checkpoint verifier
error or a full block verifier error. -/
inductive VerifyChainError : Type
  | checkpoint (e : VerifyCheckpointError)
  | block (e : VerifyBlockError)
deriving DecidableEq, Repr

/-- `zebrad::components::sync::downloads::BlockDownloadVerifyError`, with the
variants matched in `ChainSync::should_restart_sync`.  `DownloadFailed` wraps
a boxed error inspected only through its debug string.  The defining module
(`components/sync/downloads.rs`) is outside the embedded sources; variants not
named in `sync.rs` are represented by `otherDownloadVerifyError`. -/
inductive BlockDownloadVerifyError : Type
  | invalid (e : VerifyChainError)
  | cancelledDuringDownload
  | cancelledDuringVerification
  | behindTipHeightLimit
  | downloadFailed (sourceDebug : String)
  | otherDownloadVerifyError (debug : String)
deriving DecidableEq, Repr

/-- Whether `needle` occurs as a contiguous sublist of the list: the model of
Rust `str::contains` on the debug strings in `should_restart_sync`. -/
def listContainsSub [DecidableEq α] : List α → List α → Bool
  | _, [] => true
  | [], _ :: _ => false
  | a :: rest, needle =>
      needle.isPrefixOf (a :: rest) || listContainsSub rest needle

/-- Rust `String::contains(pat)` for the debug-string checks in
`should_restart_sync`. -/
def strContainsSub (hay needle : String) : Bool :=
  listContainsSub hay.toList needle.toList

/-- `ChainSync::should_restart_sync` (sync.rs lines 813-889): returns whether
the outer sync loop must restart for the given download/verify error.  The
match arms are translated in source order, including the guard conditions of
the two string-matching arms; every unmatched error falls through to `true`. -/
def shouldRestartSync (e : BlockDownloadVerifyError) : Bool :=
  match e with
  | .invalid (.checkpoint (.alreadyVerified _)) => false
  | .invalid (.block (.blockSource (.alreadyInChain _ _))) => false
  | .cancelledDuringDownload => false
  | .cancelledDuringVerification => false
  | .behindTipHeightLimit => false
  | .invalid (.block (.commit source)) =>
      if strContainsSub source "block is already committed to the state" then
        false
      else
        true
  | .downloadFailed source =>
      if strContainsSub source "NotFound" then false else true
  | _ => true

/-- The specification's list of continuation errors (spec §4.6 restart
classifier and §7 error taxonomy, as quoted by the claim): already-verified,
already-in-chain, cancelled during download or verification, behind-tip-height,
already-committed-to-the-state, and NotFound.  Stated from the spec's words,
for comparison against `shouldRestartSync`. -/
def IsContinuationError (e : BlockDownloadVerifyError) : Prop :=
  (∃ height, e = .invalid (.checkpoint (.alreadyVerified height))) ∨
  (∃ hash height,
    e = .invalid (.block (.blockSource (.alreadyInChain hash height)))) ∨
  e = .cancelledDuringDownload ∨
  e = .cancelledDuringVerification ∨
  e = .behindTipHeightLimit ∨
  (∃ source, e = .invalid (.block (.commit source)) ∧
    strContainsSub source "block is already committed to the state" = true) ∨
  (∃ source, e = .downloadFailed source ∧
    strContainsSub source "NotFound" = true)

/-! ## ExtendTips response handling (`zebrad/src/components/sync.rs`) -/

/-- `CheckedTip` (sync.rs lines 182-186): a prospective tip together with the
hash expected to start the next `FindBlocks` response. -/
structure CheckedTip : Type where
  tip : Nat
  expectedNext : Nat
deriving DecidableEq, Repr

/-- The slice match on `hashes.as_slice()` in `ChainSync::extend_tips`
(sync.rs lines 641-673): accept the response if its first hash matches the
tip's `expected_next` (returning the rest), or if its second hash matches
(tolerating one spurious `zcashd` prefix hash, returning the rest after the
match); otherwise discard the response (`none`). -/
def extendTipsMatchExpected (expectedNext : Nat) (hashes : List Nat) :
    Option (List Nat) :=
  match hashes with
  | [] => none
  | [singleHash] => if singleHash = expectedNext then some [] else none
  | firstHash :: secondHash :: rest =>
      if firstHash = expectedNext then some (secondHash :: rest)
      else if secondHash = expectedNext then some rest
      else none

/-- The per-response processing of `ChainSync::extend_tips` (sync.rs lines
641-692): match the first hash(es) against `expected_next`, discard the last
hash, and build the new `CheckedTip` from the last two remaining hashes
(`rchunks_exact(2).next()`, so `tip` is the second-to-last hash and
`expected_next` the last).  Returns the unknown hashes added to the download
set and the new prospective tip, or `none` when the response is discarded. -/
def extendTipsStep (tip : CheckedTip) (hashes : List Nat) :
    Option (List Nat × CheckedTip) :=
  match extendTipsMatchExpected tip.expectedNext hashes with
  | none => none
  | some unknownHashes =>
      match unknownHashes with
      | [] => none
      | _ :: _ =>
          let unknownHashes := unknownHashes.dropLast
          match unknownHashes.reverse with
          | last :: secondLast :: _ =>
              some (unknownHashes, ⟨secondLast, last⟩)
          | _ => none

/-! ## `addrv2` entry deserialization
(`zebra-network/src/protocol/external/addr/v2.rs`) -/

/-- `MAX_ADDR_V2_ADDR_SIZE` (v2.rs line 35). -/
def MAX_ADDR_V2_ADDR_SIZE : Nat := 512

/-- `ADDR_V2_IPV4_ADDR_SIZE` (v2.rs line 40). -/
def ADDR_V2_IPV4_ADDR_SIZE : Nat := 4

/-- `ADDR_V2_IPV6_ADDR_SIZE` (v2.rs line 45). -/
def ADDR_V2_IPV6_ADDR_SIZE : Nat := 16

/-- `AddrV2` (v2.rs lines 54-85): a parsed `addrv2` entry.  The `ip` payload
keeps the raw address bytes; `IpAddr` vs `Unimplemented` as in the source. -/
inductive AddrV2 : Type
  | ipAddr (untrustedLastSeen untrustedServices : Nat) (ip : List Nat)
      (port : Nat)
  | unimplemented
deriving DecidableEq, Repr

/-- The validation part of `AddrV2::zcash_deserialize` (v2.rs lines 117-195),
applied to the already-read fields (time, services, network ID, addr bytes,
port: the field reads themselves are the byte-level codec, which the spec
treats as an external collaborator).  Checks run in source order: the 512-byte
bound first, then the exact-length checks for network IDs `0x01` (IPv4, 4
bytes) and `0x02` (IPv6, 16 bytes); any other network ID yields
`Unimplemented` without error. -/
def addrV2Deserialize (untrustedLastSeen untrustedServices networkId : Nat)
    (addr : List Nat) (port : Nat) : Except String AddrV2 :=
  if addr.length > MAX_ADDR_V2_ADDR_SIZE then
    .error "addr field longer than MAX_ADDR_V2_ADDR_SIZE in addrv2 message"
  else if networkId = 0x01 then
    if addr.length ≠ ADDR_V2_IPV4_ADDR_SIZE then
      .error "IPv4 field length did not match ADDR_V2_IPV4_ADDR_SIZE in addrv2 message"
    else
      .ok (.ipAddr untrustedLastSeen untrustedServices addr port)
  else if networkId = 0x02 then
    if addr.length ≠ ADDR_V2_IPV6_ADDR_SIZE then
      .error "IPv6 field length did not match ADDR_V2_IPV6_ADDR_SIZE in addrv2 message"
    else
      .ok (.ipAddr untrustedLastSeen untrustedServices addr port)
  else
    .ok .unimplemented

/-- Whether an `Except` result is a (parse) error. -/
def exceptIsError : Except String AddrV2 → Bool
  | .error _ => true
  | .ok _ => false

/-! ## Best-tip-height fan-in
(`zebra-state/src/service/best_tip_height.rs`) -/

/-- `BestTipHeight` (best_tip_height.rs lines 10-16), with the watch channel
modelled as the list of values sent so far (oldest first).  `watch::channel`
is created holding the genesis height, so `published` starts as `[0]`;
`activeValue` is the last value sent, as in the source. -/
structure BestTipHeight : Type where
  finalized : Nat
  nonFinalized : Option Nat
  activeValue : Nat
  published : List Nat
deriving DecidableEq, Repr

/-- `BestTipHeight::new` (best_tip_height.rs lines 21-34): all heights start
at the genesis height `0`, and the watch channel holds the genesis height. -/
def BestTipHeight.new : BestTipHeight :=
  { finalized := 0, nonFinalized := none, activeValue := 0, published := [0] }

/-- The best-tip value derived from the two inputs, as computed inside
`BestTipHeight::update` (best_tip_height.rs lines 61-64): the maximum of the
finalized height and the non-finalized height when the latter is present,
otherwise the finalized height. -/
def BestTipHeight.derivedValue (b : BestTipHeight) : Nat :=
  match b.nonFinalized with
  | some nonFinalized => max b.finalized nonFinalized
  | none => b.finalized

/-- `BestTipHeight::update` (best_tip_height.rs lines 60-70): send the derived
value on the watch channel only when it differs from the last value sent. -/
def BestTipHeight.update (b : BestTipHeight) : BestTipHeight :=
  if b.derivedValue ≠ b.activeValue then
    { b with activeValue := b.derivedValue,
             published := b.published ++ [b.derivedValue] }
  else
    b

/-- `BestTipHeight::set_finalized_height` (best_tip_height.rs lines 39-44). -/
def BestTipHeight.setFinalizedHeight (b : BestTipHeight) (newHeight : Nat) :
    BestTipHeight :=
  if b.finalized ≠ newHeight then
    BestTipHeight.update { b with finalized := newHeight }
  else
    b

/-- `BestTipHeight::set_best_non_finalized_height` (best_tip_height.rs lines
49-54). -/
def BestTipHeight.setBestNonFinalizedHeight (b : BestTipHeight)
    (newHeight : Option Nat) : BestTipHeight :=
  if b.nonFinalized ≠ newHeight then
    BestTipHeight.update { b with nonFinalized := newHeight }
  else
    b

/-- One call to the public interface of `BestTipHeight`. -/
inductive TipOp : Type
  | setFinalized (height : Nat)
  | setNonFinalized (height : Option Nat)
deriving DecidableEq, Repr

/-- Apply one `TipOp` call. -/
def applyTipOp (b : BestTipHeight) : TipOp → BestTipHeight
  | .setFinalized height => b.setFinalizedHeight height
  | .setNonFinalized height => b.setBestNonFinalizedHeight height

/-- Run a sequence of `TipOp` calls from `BestTipHeight::new`. -/
def runTipOps (ops : List TipOp) : BestTipHeight :=
  ops.foldl applyTipOp BestTipHeight.new

/-! ## Mempool storage (`zebrad/src/components/mempool/storage.rs`) -/

/-- `MEMPOOL_SIZE` (storage.rs line 19): the capacity of the verified set. -/
def MEMPOOL_SIZE : Nat := 2

/-- The rejection `State` enum (storage.rs lines 23-40).  `Invalid` carries a
`TransactionError` and `Confirmed` a block hash; both payloads are opaque to
the storage logic and are modelled as `Nat`. -/
inductive RejectionState : Type
  | invalid (e : Nat)
  | confirmed (blockHash : Nat)
  | spendConflict
  | expired
  | lowFee
  | excess
deriving DecidableEq, Repr

/-- `MempoolError` (`zebrad/src/components/mempool/error.rs`), with the
variants constructed in `storage.rs` and `mempool.rs`: the payloads of
`Invalid` and `InBlock` are opaque to the storage logic and are modelled as
`Nat`. -/
inductive MempoolError : Type
  | invalid (e : Nat)
  | expired
  | inBlock (blockHash : Nat)
  | excess
  | lowFee
  | spendConflict
  | inMempool
  | rejected
deriving DecidableEq, Repr

deriving instance DecidableEq for Except

/-- The `match` in `Storage::insert` that converts a cached rejection
`State` into the returned `MempoolError` (storage.rs lines 74-81). -/
def mempoolErrorOfState : RejectionState → MempoolError
  | .invalid e => .invalid e
  | .expired => .expired
  | .confirmed blockHash => .inBlock blockHash
  | .excess => .excess
  | .lowFee => .lowFee
  | .spendConflict => .spendConflict

/-- `UnminedTx` as used by the mempool storage: its id (`UnminedTxId`, a
collision-resistant hash in the source, modelled as `Nat`) and the four
output lists the conflict checks iterate over (`spent_outpoints`,
`sprout_nullifiers`, `sapling_nullifiers`, `orchard_nullifiers`). -/
structure UnminedTx : Type where
  id : Nat
  spentOutpoints : List Nat
  sproutNullifiers : List Nat
  saplingNullifiers : List Nat
  orchardNullifiers : List Nat
deriving DecidableEq, Repr

/-- `Storage` (storage.rs lines 43-62): the insertion-ordered verified set
(`VecDeque`, most recent first), the rejected map, and the four conflict-index
sets.  The `HashSet`s are modelled as duplicate-free lists and the `HashMap`
as an association list. -/
structure Storage : Type where
  verified : List UnminedTx
  rejected : List (Nat × RejectionState)
  spentOutpoints : List Nat
  sproutNullifiers : List Nat
  saplingNullifiers : List Nat
  orchardNullifiers : List Nat
deriving DecidableEq, Repr

/-- `Storage::default()`: everything empty. -/
def Storage.default : Storage :=
  { verified := [], rejected := [], spentOutpoints := [],
    sproutNullifiers := [], saplingNullifiers := [], orchardNullifiers := [] }

/-- `HashMap::get`/`contains_key` on the rejected map. -/
def lookupRejected (rejected : List (Nat × RejectionState)) (txId : Nat) :
    Option RejectionState :=
  match rejected.find? (fun entry => entry.1 = txId) with
  | some entry => some entry.2
  | none => none

/-- `HashMap::insert` on the rejected map (overwrites an existing entry). -/
def insertRejected (rejected : List (Nat × RejectionState)) (txId : Nat)
    (state : RejectionState) : List (Nat × RejectionState) :=
  (txId, state) :: rejected.filter (fun entry => entry.1 ≠ txId)

/-- `Storage::remove_from_set` (storage.rs lines 245-252): remove each item of
`items` from the set. -/
def removeFromSet (set : List Nat) (items : List Nat) : List Nat :=
  set.filter (fun x => x ∉ items)

/-- The loop of `Storage::has_spend_conflicts` (storage.rs lines 227-238):
walk the new outputs, inserting each into the set; on the first output that
is already present, remove the outputs inserted so far and report a conflict.
`insertedOutputs` accumulates the outputs inserted by this call. -/
def hasSpendConflictsGo (existingOutputs insertedOutputs : List Nat) :
    List Nat → Bool × List Nat
  | [] => (false, existingOutputs)
  | newOutput :: rest =>
      if newOutput ∈ existingOutputs then
        (true, removeFromSet existingOutputs insertedOutputs)
      else
        hasSpendConflictsGo (newOutput :: existingOutputs)
          (newOutput :: insertedOutputs) rest

/-- `Storage::has_spend_conflicts` (storage.rs lines 220-239): returns the
conflict flag and the updated set (on no conflict the new outputs remain
inserted; on conflict only this call's insertions are rolled back). -/
def hasSpendConflicts (existingOutputs newOutputs : List Nat) :
    Bool × List Nat :=
  hasSpendConflictsGo existingOutputs [] newOutputs

/-- `Storage::check_spend_conflicts` (storage.rs lines 201-213): the
short-circuiting `||` chain over the four index sets.  Each
`has_spend_conflicts` call mutates its own set; once a conflict is found the
later sets are not touched. -/
def checkSpendConflicts (s : Storage) (tx : UnminedTx) : Bool × Storage :=
  let r1 := hasSpendConflicts s.spentOutpoints tx.spentOutpoints
  let s1 := { s with spentOutpoints := r1.2 }
  if r1.1 then (true, s1)
  else
    let r2 := hasSpendConflicts s1.sproutNullifiers tx.sproutNullifiers
    let s2 := { s1 with sproutNullifiers := r2.2 }
    if r2.1 then (true, s2)
    else
      let r3 := hasSpendConflicts s2.saplingNullifiers tx.saplingNullifiers
      let s3 := { s2 with saplingNullifiers := r3.2 }
      if r3.1 then (true, s3)
      else
        let r4 := hasSpendConflicts s3.orchardNullifiers tx.orchardNullifiers
        let s4 := { s3 with orchardNullifiers := r4.2 }
        (r4.1, s4)

/-- `Storage::insert` (storage.rs lines 69-114): check the rejection cache,
then presence in the verified set, then spend conflicts; otherwise push the
transaction at the front of the verified set and evict transactions beyond
`MEMPOOL_SIZE` from the back (`drain(MEMPOOL_SIZE..)`), recording each evicted
transaction as `Excess`. -/
def Storage.insert (s : Storage) (tx : UnminedTx) :
    Except MempoolError Nat × Storage :=
  match lookupRejected s.rejected tx.id with
  | some state => (.error (mempoolErrorOfState state), s)
  | none =>
      if tx ∈ s.verified then (.error .inMempool, s)
      else
        let conflict := (checkSpendConflicts s tx).1
        let s1 := (checkSpendConflicts s tx).2
        if conflict then
          (.error .rejected,
            { s1 with
              rejected := insertRejected s1.rejected tx.id .spendConflict })
        else
          let verified := tx :: s1.verified
          if verified.length > MEMPOOL_SIZE then
            let evicted := verified.drop MEMPOOL_SIZE
            (.ok tx.id,
              { s1 with
                verified := verified.take MEMPOOL_SIZE
                rejected := evicted.foldl
                  (fun rejected evictedTx =>
                    insertRejected rejected evictedTx.id .excess)
                  s1.rejected })
          else
            (.ok tx.id, { s1 with verified := verified })

/-- `Storage::remove_outputs` (storage.rs lines 182-194): remove the
transaction's outputs from the four conflict-index sets. -/
def Storage.removeOutputs (s : Storage) (tx : UnminedTx) : Storage :=
  { s with
    spentOutpoints := removeFromSet s.spentOutpoints tx.spentOutpoints
    sproutNullifiers := removeFromSet s.sproutNullifiers tx.sproutNullifiers
    saplingNullifiers := removeFromSet s.saplingNullifiers tx.saplingNullifiers
    orchardNullifiers :=
      removeFromSet s.orchardNullifiers tx.orchardNullifiers }

/-- `Storage::remove` (storage.rs lines 128-141): remove a transaction from
the verified set by id (keeping the remaining order) and drop its outputs
from the conflict-index sets; the rejected map is not touched. -/
def Storage.remove (s : Storage) (txId : Nat) :
    Option UnminedTx × Storage :=
  match s.verified.find? (fun tx => tx.id = txId) with
  | some tx =>
      let s := { s with verified := s.verified.filter (fun tx => tx.id ≠ txId) }
      (some tx, s.removeOutputs tx)
  | none => (none, s)

/-- `Storage::clear` (storage.rs lines 172-179). -/
def Storage.clear (_s : Storage) : Storage :=
  Storage.default

/-! ## Gossiped address validation (candidate set) -/

/-- A gossiped address-book entry as produced by
`MetaAddr::new_gossiped_meta_addr` (used by `validate_addrs` and its test
vectors): the socket address and advertised services are opaque here, and
`untrustedLastSeen` is the gossiped 32-bit last-seen time in seconds. -/
structure GossipedMetaAddr : Type where
  addr : Nat
  services : Nat
  untrustedLastSeen : Nat
deriving DecidableEq, Repr

/-- The maximum gossiped last-seen time of a batch (`0` for an empty batch,
which makes the empty batch pass through unchanged below, matching `max()`
over an empty iterator yielding no offset). -/
def maxLastSeen (peers : List GossipedMetaAddr) : Nat :=
  peers.foldl (fun acc p => max acc p.untrustedLastSeen) 0

/-- Modelled from the spec: `validate_addrs(peers, limit)` (spec §4.5); the
function lives in `zebra-network/src/peer_set/candidate_set.rs`, which is not
among the sources (only its tests are).  Per the spec: let `max_ts` be the
maximum gossiped last-seen time; if `max_ts > limit`, subtract the single
offset `max_ts - limit` from every entry's last-seen time, rejecting the whole
batch (empty output) if that subtraction would underflow any entry (`u32`
checked subtraction); entries whose resulting last-seen time is at most
`limit` are emitted.  The behaviour agrees with the test vectors in
`candidate_set/tests/vectors.rs`. -/
def validateAddrs (peers : List GossipedMetaAddr) (lastSeenLimit : Nat) :
    List GossipedMetaAddr :=
  let maxTs := maxLastSeen peers
  if lastSeenLimit < maxTs then
    let offset := maxTs - lastSeenLimit
    if peers.any (fun p => p.untrustedLastSeen < offset) then
      []
    else
      (peers.map (fun p =>
        { p with untrustedLastSeen := p.untrustedLastSeen - offset })).filter
        (fun p => p.untrustedLastSeen ≤ lastSeenLimit)
  else
    peers

/-- The invariant of every reachable `BestTipHeight` state: the channel holds
at least its initial value, `activeValue` is the last value sent, the derived
value has been propagated into `activeValue`, and no two consecutive
published values are equal. -/
def TipInv (b : BestTipHeight) : Prop :=
  b.published ≠ [] ∧
  b.published.getLast?.getD 0 = b.activeValue ∧
  b.derivedValue = b.activeValue ∧
  List.Chain' Ne b.published

/-- Two transactions conflict when they spend a common transparent outpoint
or reveal a common sprout, sapling, or orchard nullifier. -/
def ConflictingTxs (t1 t2 : UnminedTx) : Prop :=
  (∃ x ∈ t1.spentOutpoints, x ∈ t2.spentOutpoints) ∨
  (∃ x ∈ t1.sproutNullifiers, x ∈ t2.sproutNullifiers) ∨
  (∃ x ∈ t1.saplingNullifiers, x ∈ t2.saplingNullifiers) ∨
  (∃ x ∈ t1.orchardNullifiers, x ∈ t2.orchardNullifiers)

/-- A transaction is well formed when none of its four output lists repeats
an element (a valid transaction cannot spend the same outpoint or reveal the
same nullifier twice). -/
def TxNodup (t : UnminedTx) : Prop :=
  t.spentOutpoints.Nodup ∧ t.sproutNullifiers.Nodup ∧
    t.saplingNullifiers.Nodup ∧ t.orchardNullifiers.Nodup

instance (t : UnminedTx) : Decidable (TxNodup t) := by
  unfold TxNodup
  infer_instance

instance (t1 t2 : UnminedTx) : Decidable (ConflictingTxs t1 t2) := by
  unfold ConflictingTxs
  infer_instance

/-- The well-formedness invariant that every storage reachable through
`insert`, `remove` and `clear` satisfies (established below): the verified
set has no duplicates, distinct verified transactions have distinct ids, and
no verified transaction's id is in the rejected map. -/
def GoodStorage (s : Storage) : Prop :=
  s.verified.Nodup ∧
  (∀ t1 ∈ s.verified, ∀ t2 ∈ s.verified, t1.id = t2.id → t1 = t2) ∧
  (∀ t ∈ s.verified, lookupRejected s.rejected t.id = none)

instance (s : Storage) : Decidable (GoodStorage s) := by
  unfold GoodStorage
  infer_instance

/-! ## Theorems -/

/-- C4: `should_restart_sync(e)` decides to continue (not restart) if and
only if `e` is one of: already-verified, already-in-chain, cancelled during
download or verification, behind-tip-height, already-committed-to-the-state,
or NotFound; every other error causes the outer sync loop to restart. -/
theorem should_restart_sync_continue_iff (e : BlockDownloadVerifyError) :
    shouldRestartSync e = false ↔ IsContinuationError e := by
  cases e with
  | invalid ve =>
      cases ve with
      | checkpoint ce =>
          cases ce <;> simp [shouldRestartSync, IsContinuationError]
      | block be =>
          cases be with
          | blockSource bs =>
              cases bs <;> simp [shouldRestartSync, IsContinuationError]
          | commit source =>
              by_cases hc :
                  strContainsSub source
                    "block is already committed to the state" = true
              · simp [shouldRestartSync, IsContinuationError, hc]
              · simp only [Bool.not_eq_true] at hc
                simp [shouldRestartSync, IsContinuationError, hc]
          | otherVerifyBlockError d =>
              simp [shouldRestartSync, IsContinuationError]
  | cancelledDuringDownload =>
      simp [shouldRestartSync, IsContinuationError]
  | cancelledDuringVerification =>
      simp [shouldRestartSync, IsContinuationError]
  | behindTipHeightLimit =>
      simp [shouldRestartSync, IsContinuationError]
  | downloadFailed source =>
      by_cases hc : strContainsSub source "NotFound" = true
      · simp [shouldRestartSync, IsContinuationError, hc]
      · simp only [Bool.not_eq_true] at hc
        simp [shouldRestartSync, IsContinuationError, hc]
  | otherDownloadVerifyError d =>
      simp [shouldRestartSync, IsContinuationError]

/-- Witness for C4: a cancelled download is classified as a continuation
error by the classifier. -/
theorem should_restart_sync_continue_iff_witness :
    IsContinuationError .cancelledDuringDownload :=
  (should_restart_sync_continue_iff .cancelledDuringDownload).mp (by decide)

/-- C8: deserializing a single `addrv2` entry errors when the addr field
exceeds 512 bytes; errors when the network ID is IPv4 (`0x01`) or IPv6
(`0x02`) but the addr length is not exactly 4 or 16 bytes; and for every
other network ID (with the addr field within the 512-byte bound that applies
irrespective of the network ID) returns the `Unimplemented` variant without
error. -/
theorem addr_v2_deserialize_checks (untrustedLastSeen untrustedServices
    networkId : Nat) (addr : List Nat) (port : Nat) :
    (addr.length > MAX_ADDR_V2_ADDR_SIZE →
      exceptIsError
        (addrV2Deserialize untrustedLastSeen untrustedServices networkId
          addr port) = true) ∧
    (networkId = 0x01 → addr.length ≠ ADDR_V2_IPV4_ADDR_SIZE →
      exceptIsError
        (addrV2Deserialize untrustedLastSeen untrustedServices networkId
          addr port) = true) ∧
    (networkId = 0x02 → addr.length ≠ ADDR_V2_IPV6_ADDR_SIZE →
      exceptIsError
        (addrV2Deserialize untrustedLastSeen untrustedServices networkId
          addr port) = true) ∧
    (networkId ≠ 0x01 → networkId ≠ 0x02 →
      addr.length ≤ MAX_ADDR_V2_ADDR_SIZE →
      addrV2Deserialize untrustedLastSeen untrustedServices networkId addr
        port = .ok .unimplemented) := by
  refine ⟨?_, ?_, ?_, ?_⟩
  · intro hlong
    unfold addrV2Deserialize
    rw [if_pos hlong]
    rfl
  · intro hid hlen
    unfold addrV2Deserialize
    split_ifs <;> simp_all [exceptIsError]
  · intro hid hlen
    unfold addrV2Deserialize
    split_ifs <;> simp_all [exceptIsError]
  · intro hid4 hid6 hlen
    unfold addrV2Deserialize
    rw [if_neg (by omega), if_neg hid4, if_neg hid6]

/-- Witness for C8: an entry with the unassigned network ID `0x05` and a
32-byte addr field deserializes to `Unimplemented`, and an IPv4 entry with a
3-byte addr field is rejected. -/
theorem addr_v2_deserialize_checks_witness :
    addrV2Deserialize 7 1 0x05 (List.replicate 32 0) 8233
        = .ok .unimplemented ∧
    exceptIsError (addrV2Deserialize 7 1 0x01 [127, 0, 1] 8233) = true := by
  constructor
  · exact (addr_v2_deserialize_checks 7 1 0x05 (List.replicate 32 0)
      8233).2.2.2 (by decide) (by decide) (by decide)
  · exact (addr_v2_deserialize_checks 7 1 0x01 [127, 0, 1] 8233).2.1
      (by decide) (by decide)

/-- C5 counterexample: for a prospective tip with `expected_next = H1` and
the peer response `[H0, H1, H2, H3, H4]` (taking `Hi = i`, tip hash `100`),
the unknown tail handed to the download set is `[H2, H3]`, not `[H1, H2, H3]`
as the claim states: the matched hash `H1` is consumed by the slice pattern
and is not re-queued. -/
theorem extend_tips_prefix_quirk_counterexample :
    extendTipsStep ⟨100, 1⟩ [0, 1, 2, 3, 4]
        = some ([2, 3], ⟨2, 3⟩) ∧ ([2, 3] : List Nat) ≠ [1, 2, 3] := by
  exact ⟨rfl, by decide⟩

/-- C5 as amended: for a held prospective tip with `expected_next = H1` and a
peer response `[H0, H1, H2, H3, H4]` whose first hash does not match, the
spurious prefix `H0` is tolerated because the second hash matches
`expected_next`; the matched `H1` is consumed, the last hash `H4` is
discarded, the unknown tail is `[H2, H3]`, and the new prospective tip is
`CheckedTip { tip: H2, expected_next: H3 }`. -/
theorem extend_tips_prefix_quirk (t h0 h1 h2 h3 h4 : Nat) (hne : h0 ≠ h1) :
    extendTipsStep ⟨t, h1⟩ [h0, h1, h2, h3, h4]
      = some ([h2, h3], ⟨h2, h3⟩) := by
  simp [extendTipsStep, extendTipsMatchExpected, hne]

/-- Witness for the amended C5: the concrete instance with hashes `0..4`. -/
theorem extend_tips_prefix_quirk_witness :
    extendTipsStep ⟨100, 0⟩ [4, 0, 10, 20, 30]
      = some ([10, 20], ⟨10, 20⟩) :=
  extend_tips_prefix_quirk 100 4 0 10 20 30 (by decide)

/-- `update` always leaves `activeValue` equal to the derived value. -/
theorem update_activeValue (b : BestTipHeight) :
    b.update.activeValue = b.derivedValue := by
  unfold BestTipHeight.update
  by_cases h : b.derivedValue ≠ b.activeValue
  · simp [h]
  · push_neg at h
    simp [h]

/-- `update` does not change the two input fields. -/
theorem update_inputs (b : BestTipHeight) :
    b.update.finalized = b.finalized ∧
      b.update.nonFinalized = b.nonFinalized := by
  unfold BestTipHeight.update
  by_cases h : b.derivedValue ≠ b.activeValue
  · simp [h]
  · push_neg at h
    simp [h]

/-- C2 counterexample: set the finalized height to `10` and then the best
non-finalized height to `Some(5)`.  The published best-tip height stays `10`
(the maximum), while the claim's `n.unwrap_or(f)` is `5`; no value `5` is
ever sent on the watch channel. -/
theorem best_tip_unwrap_or_counterexample :
    ((BestTipHeight.new.setFinalizedHeight 10).setBestNonFinalizedHeight
        (some 5)).activeValue = 10 ∧
    ((BestTipHeight.new.setFinalizedHeight 10).setBestNonFinalizedHeight
        (some 5)).published = [0, 10] ∧
    (some 5).getD 10 = 5 ∧
    ((BestTipHeight.new.setFinalizedHeight 10).setBestNonFinalizedHeight
        (some 5)).activeValue ≠ (some 5).getD 10 := by
  refine ⟨rfl, rfl, rfl, by decide⟩

/-- C2 as amended: after `set_finalized_height(f)` and
`set_best_non_finalized_height(n)` (in either order, starting from `new`),
the published best-tip height equals `max f n` when `n` is present and `f`
otherwise, matching `BestTipHeight::update` and the property test
`best_tip_value_is_heighest_of_finalized_and_non_finalized_heights`. -/
theorem best_tip_published_is_max (f : Nat) (n : Option Nat) :
    ((BestTipHeight.new.setFinalizedHeight f).setBestNonFinalizedHeight
        n).activeValue
      = (match n with
         | some nonFinalized => max f nonFinalized
         | none => f) ∧
    ((BestTipHeight.new.setBestNonFinalizedHeight n).setFinalizedHeight
        f).activeValue
      = (match n with
         | some nonFinalized => max f nonFinalized
         | none => f) := by
  constructor
  · have h1 : (BestTipHeight.new.setFinalizedHeight f).finalized = f ∧
        (BestTipHeight.new.setFinalizedHeight f).nonFinalized = none ∧
        (BestTipHeight.new.setFinalizedHeight f).activeValue = f := by
      unfold BestTipHeight.setFinalizedHeight
      by_cases hf : BestTipHeight.new.finalized ≠ f
      · rw [if_pos hf]
        refine ⟨(update_inputs _).1, (update_inputs _).2, ?_⟩
        rw [update_activeValue]
        rfl
      · push_neg at hf
        rw [if_neg (by simp [hf])]
        simp [BestTipHeight.new] at hf
        simp [BestTipHeight.new, hf]
    obtain ⟨hf, hn, ha⟩ := h1
    unfold BestTipHeight.setBestNonFinalizedHeight
    cases n with
    | none => rw [if_neg (by simp [hn])]; exact ha
    | some nonFinalized =>
        rw [if_pos (by simp [hn])]
        rw [update_activeValue]
        unfold BestTipHeight.derivedValue
        simp [hf]
  · have h1 : (BestTipHeight.new.setBestNonFinalizedHeight n).finalized = 0 ∧
        (BestTipHeight.new.setBestNonFinalizedHeight n).nonFinalized = n ∧
        (BestTipHeight.new.setBestNonFinalizedHeight n).activeValue
          = (match n with
             | some nonFinalized => nonFinalized
             | none => 0) := by
      unfold BestTipHeight.setBestNonFinalizedHeight
      by_cases hn : BestTipHeight.new.nonFinalized ≠ n
      · rw [if_pos hn]
        refine ⟨(update_inputs _).1, (update_inputs _).2, ?_⟩
        rw [update_activeValue]
        cases n with
        | none => simp [BestTipHeight.new] at hn
        | some nonFinalized =>
            unfold BestTipHeight.derivedValue
            simp [BestTipHeight.new]
      · push_neg at hn
        rw [if_neg (by simp [hn])]
        simp [BestTipHeight.new] at hn
        simp [BestTipHeight.new, ← hn]
    obtain ⟨hf, hn, ha⟩ := h1
    unfold BestTipHeight.setFinalizedHeight
    by_cases hchange : (BestTipHeight.new.setBestNonFinalizedHeight
        n).finalized ≠ f
    · rw [if_pos hchange]
      rw [update_activeValue]
      unfold BestTipHeight.derivedValue
      cases n with
      | none => simp [hn]
      | some nonFinalized => simp [hn]
    · push_neg at hchange
      rw [if_neg (by simp [hchange])]
      rw [hf] at hchange
      cases n with
      | none => rw [ha, ← hchange]
      | some nonFinalized =>
          rw [ha, ← hchange]
          simp

/-- `update` does not change the derived value. -/
theorem update_derivedValue (b : BestTipHeight) :
    b.update.derivedValue = b.derivedValue := by
  unfold BestTipHeight.derivedValue
  rw [(update_inputs b).1, (update_inputs b).2]

/-- The initial state satisfies the invariant. -/
theorem tipInv_new : TipInv BestTipHeight.new := by
  refine ⟨by decide, rfl, rfl, ?_⟩
  simp [BestTipHeight.new]

/-- `update` establishes the invariant, given only the published-channel part
of the invariant (it is called on states whose input fields were just
changed, so the derived value may differ from `activeValue` beforehand). -/
theorem update_tipInv (b : BestTipHeight) (hne : b.published ≠ [])
    (hlast : b.published.getLast?.getD 0 = b.activeValue)
    (hchain : List.Chain' Ne b.published) : TipInv b.update := by
  have hsome : b.published.getLast? = some b.activeValue := by
    cases hl : b.published.getLast? with
    | none => exact absurd (List.getLast?_eq_none_iff.mp hl) hne
    | some y => rw [hl] at hlast; simp at hlast; rw [hlast]
  by_cases h : b.derivedValue ≠ b.activeValue
  · have hupd : b.update =
        { b with activeValue := b.derivedValue,
                 published := b.published ++ [b.derivedValue] } := by
      unfold BestTipHeight.update
      exact if_pos h
    rw [TipInv, hupd]
    refine ⟨by simp, ?_, ?_, ?_⟩
    · show (b.published ++ [b.derivedValue]).getLast?.getD 0 = b.derivedValue
      rw [List.getLast?_append_cons]
      rfl
    · rfl
    · show List.Chain' Ne (b.published ++ [b.derivedValue])
      rw [List.chain'_append]
      refine ⟨hchain, by simp, ?_⟩
      intro x hx y hy
      rw [hsome] at hx
      simp at hx hy
      rw [← hx, ← hy]
      exact fun heq => h heq.symm
  · push_neg at h
    have hupd : b.update = b := by
      unfold BestTipHeight.update
      exact if_neg (fun hcon => hcon h)
    rw [hupd]
    exact ⟨hne, hlast, h, hchain⟩

/-- Every `TipOp` call preserves the invariant. -/
theorem applyTipOp_tipInv (b : BestTipHeight) (h : TipInv b) (op : TipOp) :
    TipInv (applyTipOp b op) := by
  obtain ⟨hne, hlast, hact, hchain⟩ := h
  cases op with
  | setFinalized height =>
      show TipInv (b.setFinalizedHeight height)
      unfold BestTipHeight.setFinalizedHeight
      by_cases hch : b.finalized ≠ height
      · rw [if_pos hch]
        exact update_tipInv _ hne hlast hchain
      · rw [if_neg hch]
        exact ⟨hne, hlast, hact, hchain⟩
  | setNonFinalized height =>
      show TipInv (b.setBestNonFinalizedHeight height)
      unfold BestTipHeight.setBestNonFinalizedHeight
      by_cases hch : b.nonFinalized ≠ height
      · rw [if_pos hch]
        exact update_tipInv _ hne hlast hchain
      · rw [if_neg hch]
        exact ⟨hne, hlast, hact, hchain⟩

/-- Every state reachable from `BestTipHeight::new` satisfies the
invariant. -/
theorem tipInv_runTipOps (ops : List TipOp) : TipInv (runTipOps ops) := by
  have hgen : ∀ (rest : List TipOp) (b : BestTipHeight), TipInv b →
      TipInv (rest.foldl applyTipOp b) := by
    intro rest
    induction rest with
    | nil => intro b hb; exact hb
    | cons op rest ih =>
        intro b hb
        exact ih (applyTipOp b op) (applyTipOp_tipInv b hb op)
  exact hgen ops BestTipHeight.new tipInv_new

/-- Case analysis of one `update` call on the published values: either
nothing is sent (and the derived value already equals `activeValue`), or
exactly the derived value is appended and it differs from `activeValue`. -/
theorem update_publish_cases (b : BestTipHeight) :
    (b.update.published = b.published ∧ b.derivedValue = b.activeValue) ∨
    (b.update.published = b.published ++ [b.derivedValue] ∧
      b.derivedValue ≠ b.activeValue) := by
  by_cases h : b.derivedValue ≠ b.activeValue
  · right
    have hupd : b.update =
        { b with activeValue := b.derivedValue,
                 published := b.published ++ [b.derivedValue] } := by
      unfold BestTipHeight.update
      exact if_pos h
    rw [hupd]
    exact ⟨rfl, h⟩
  · push_neg at h
    left
    have hupd : b.update = b := by
      unfold BestTipHeight.update
      exact if_neg (fun hcon => hcon h)
    rw [hupd]
    exact ⟨rfl, h⟩

/-- One `update` on a state whose inputs were just changed (but whose channel
and `activeValue` are those of the invariant-satisfying state `b`) either
publishes nothing or appends exactly the new derived value, which differs
from the last published value. -/
theorem setter_publish_cases (b bm : BestTipHeight)
    (hpub : bm.published = b.published)
    (hact : bm.activeValue = b.activeValue)
    (hlast : b.published.getLast?.getD 0 = b.activeValue) :
    bm.update.published = b.published ∨
      (bm.update.published = b.published ++ [bm.update.derivedValue] ∧
        bm.update.derivedValue ≠ b.published.getLast?.getD 0) := by
  rcases update_publish_cases bm with ⟨hp, hd⟩ | ⟨hp, hd⟩
  · left
    rw [hp, hpub]
  · right
    constructor
    · rw [hp, hpub, update_derivedValue]
    · rw [update_derivedValue, hlast, ← hact]
      exact hd

/-- Each `TipOp` call either publishes nothing or appends exactly the new
derived value, which differs from the previous last published value. -/
theorem applyTipOp_publish_cases (b : BestTipHeight) (hinv : TipInv b)
    (op : TipOp) :
    (applyTipOp b op).published = b.published ∨
      ((applyTipOp b op).published
          = b.published ++ [(applyTipOp b op).derivedValue] ∧
        (applyTipOp b op).derivedValue ≠ b.published.getLast?.getD 0) := by
  obtain ⟨hne, hlast, hact, hchain⟩ := hinv
  cases op with
  | setFinalized height =>
      simp only [applyTipOp]
      unfold BestTipHeight.setFinalizedHeight
      by_cases hch : b.finalized ≠ height
      · rw [if_pos hch]
        exact setter_publish_cases b _ rfl rfl hlast
      · rw [if_neg hch]
        exact Or.inl rfl
  | setNonFinalized height =>
      simp only [applyTipOp]
      unfold BestTipHeight.setBestNonFinalizedHeight
      by_cases hch : b.nonFinalized ≠ height
      · rw [if_pos hch]
        exact setter_publish_cases b _ rfl rfl hlast
      · rw [if_neg hch]
        exact Or.inl rfl

/-- A `TipOp` call that leaves the derived best-tip value unchanged publishes
nothing. -/
theorem applyTipOp_no_change (b : BestTipHeight) (hinv : TipInv b)
    (op : TipOp)
    (h : (applyTipOp b op).derivedValue = b.derivedValue) :
    (applyTipOp b op).published = b.published := by
  obtain ⟨hne, hlast, hact, hchain⟩ := hinv
  cases op with
  | setFinalized height =>
      simp only [applyTipOp] at h ⊢
      unfold BestTipHeight.setFinalizedHeight at h ⊢
      by_cases hch : b.finalized ≠ height
      · rw [if_pos hch] at h ⊢
        rw [update_derivedValue] at h
        have hfix : ({ b with finalized := height } :
            BestTipHeight).update = { b with finalized := height } := by
          unfold BestTipHeight.update
          exact if_neg (fun hcon => hcon (by rw [h, hact]))
        rw [hfix]
      · rw [if_neg hch]
  | setNonFinalized height =>
      simp only [applyTipOp] at h ⊢
      unfold BestTipHeight.setBestNonFinalizedHeight at h ⊢
      by_cases hch : b.nonFinalized ≠ height
      · rw [if_pos hch] at h ⊢
        rw [update_derivedValue] at h
        have hfix : ({ b with nonFinalized := height } :
            BestTipHeight).update = { b with nonFinalized := height } := by
          unfold BestTipHeight.update
          exact if_neg (fun hcon => hcon (by rw [h, hact]))
        rw [hfix]
      · rw [if_neg hch]

/-- C9: over any sequence of `set_finalized_height` and
`set_best_non_finalized_height` calls starting from `new`, the sequence of
values published on the watch channel never contains two equal consecutive
values; each further call either publishes nothing, or publishes exactly the
newly derived best-tip height, which differs from the last value sent; and a
call that leaves the derived value unchanged publishes nothing. -/
theorem best_tip_publish_coalesces (ops : List TipOp) (op : TipOp) :
    List.Chain' Ne (runTipOps ops).published ∧
    ((applyTipOp (runTipOps ops) op).published = (runTipOps ops).published ∨
      ((applyTipOp (runTipOps ops) op).published
          = (runTipOps ops).published
              ++ [(applyTipOp (runTipOps ops) op).derivedValue] ∧
        (applyTipOp (runTipOps ops) op).derivedValue
          ≠ (runTipOps ops).published.getLast?.getD 0)) ∧
    ((applyTipOp (runTipOps ops) op).derivedValue
        = (runTipOps ops).derivedValue →
      (applyTipOp (runTipOps ops) op).published
        = (runTipOps ops).published) := by
  have hinv := tipInv_runTipOps ops
  exact ⟨hinv.2.2.2, applyTipOp_publish_cases _ hinv op,
    applyTipOp_no_change _ hinv op⟩

/-- Witness for C9: after `set_finalized_height(10)`, the call
`set_best_non_finalized_height(Some(5))` leaves the derived best-tip height
at `10` and therefore publishes nothing. -/
theorem best_tip_publish_coalesces_witness :
    (applyTipOp (runTipOps [TipOp.setFinalized 10])
        (TipOp.setNonFinalized (some 5))).published
      = (runTipOps [TipOp.setFinalized 10]).published :=
  (best_tip_publish_coalesces [TipOp.setFinalized 10]
      (TipOp.setNonFinalized (some 5))).2.2 (by decide)

/-- The fold computing `maxLastSeen` is bounded below by its accumulator. -/
theorem le_foldl_maxLastSeen (l : List GossipedMetaAddr) (init : Nat) :
    init ≤ l.foldl (fun acc q => max acc q.untrustedLastSeen) init := by
  induction l generalizing init with
  | nil => exact Nat.le_refl init
  | cons q rest ih =>
      exact Nat.le_trans (Nat.le_max_left init q.untrustedLastSeen)
        (ih (max init q.untrustedLastSeen))

/-- Every entry's last-seen time is bounded by the batch maximum. -/
theorem mem_le_maxLastSeen (B : List GossipedMetaAddr)
    (p : GossipedMetaAddr) (hp : p ∈ B) :
    p.untrustedLastSeen ≤ maxLastSeen B := by
  unfold maxLastSeen
  have hgen : ∀ (l : List GossipedMetaAddr) (init : Nat), p ∈ l →
      p.untrustedLastSeen
        ≤ l.foldl (fun acc q => max acc q.untrustedLastSeen) init := by
    intro l
    induction l with
    | nil => intro init h; exact absurd h (List.not_mem_nil p)
    | cons q rest ih =>
        intro init h
        rcases List.mem_cons.mp h with heq | hmem
        · rw [heq]
          exact Nat.le_trans (Nat.le_max_right init q.untrustedLastSeen)
            (le_foldl_maxLastSeen rest (max init q.untrustedLastSeen))
        · exact ih (max init q.untrustedLastSeen) hmem
  exact hgen B 0 hp

/-- C1 (spec-modelled): `validate_addrs(B, L)` emits only entries whose
last-seen time is at most `L`; when the batch maximum exceeds `L` and no
entry underflows, it subtracts the single offset `max - L` uniformly from
every entry (including entries already in the past); and when some entry
would underflow, the whole batch is rejected (empty output). -/
theorem validate_addrs_claim (B : List GossipedMetaAddr) (L : Nat) :
    (∀ p ∈ validateAddrs B L, p.untrustedLastSeen ≤ L) ∧
    (L < maxLastSeen B →
      (∀ p ∈ B, maxLastSeen B - L ≤ p.untrustedLastSeen) →
      validateAddrs B L = B.map (fun p =>
        { p with untrustedLastSeen :=
            p.untrustedLastSeen - (maxLastSeen B - L) })) ∧
    (L < maxLastSeen B →
      (∃ p ∈ B, p.untrustedLastSeen < maxLastSeen B - L) →
      validateAddrs B L = []) := by
  refine ⟨?_, ?_, ?_⟩
  · intro p hp
    unfold validateAddrs at hp
    by_cases hlt : L < maxLastSeen B
    · rw [if_pos hlt] at hp
      by_cases hany :
          B.any (fun q => q.untrustedLastSeen < maxLastSeen B - L) = true
      · rw [if_pos hany] at hp
        exact absurd hp (List.not_mem_nil p)
      · rw [if_neg (by simp [hany])] at hp
        have := List.mem_filter.mp hp
        exact of_decide_eq_true this.2
    · rw [if_neg hlt] at hp
      exact Nat.le_trans (mem_le_maxLastSeen B p hp) (Nat.le_of_not_lt hlt)
  · intro hlt hnounder
    unfold validateAddrs
    rw [if_pos hlt]
    have hany :
        B.any (fun q => q.untrustedLastSeen < maxLastSeen B - L) = false := by
      rw [List.any_eq_false]
      intro q hq
      simpa using Nat.not_lt.mpr (hnounder q hq)
    rw [if_neg (by simp [hany])]
    apply List.filter_eq_self.mpr
    intro x hx
    obtain ⟨p, hp, hpx⟩ := List.mem_map.mp hx
    rw [← hpx]
    apply decide_eq_true
    show p.untrustedLastSeen - (maxLastSeen B - L) ≤ L
    have hle := mem_le_maxLastSeen B p hp
    omega
  · intro hlt hunder
    unfold validateAddrs
    rw [if_pos hlt]
    obtain ⟨p, hp, hover⟩ := hunder
    have hany :
        B.any (fun q => q.untrustedLastSeen < maxLastSeen B - L) = true :=
      List.any_eq_true.mpr ⟨p, hp, decide_eq_true hover⟩
    rw [if_pos hany]

/-- Witness for C1: the underflow vector (entries at times `0`, `1000`,
`5000` with limit `1000`, so the offset `4000` underflows the first entry)
yields an empty output. -/
theorem validate_addrs_claim_witness :
    validateAddrs [⟨0, 0, 0⟩, ⟨1, 0, 1000⟩, ⟨2, 0, 5000⟩] 1000 = [] :=
  (validate_addrs_claim [⟨0, 0, 0⟩, ⟨1, 0, 1000⟩, ⟨2, 0, 5000⟩] 1000).2.2
    (by decide) (by decide)

/-- If some new output is already in the set, or the new outputs repeat an
element, the conflict loop reports a conflict. -/
theorem hasSpendConflictsGo_true (existing inserted : List Nat)
    (l : List Nat) (h : (∃ x ∈ l, x ∈ existing) ∨ ¬ l.Nodup) :
    (hasSpendConflictsGo existing inserted l).1 = true := by
  induction l generalizing existing inserted with
  | nil =>
      rcases h with ⟨x, hx, _⟩ | hnd
      · exact absurd hx (List.not_mem_nil x)
      · exact absurd List.nodup_nil hnd
  | cons x rest ih =>
      unfold hasSpendConflictsGo
      by_cases hx : x ∈ existing
      · rw [if_pos hx]
      · rw [if_neg hx]
        apply ih
        rcases h with ⟨y, hy, hyex⟩ | hnd
        · rcases List.mem_cons.mp hy with heq | hmem
          · rw [heq] at hyex
            exact absurd hyex hx
          · exact Or.inl ⟨y, hmem, List.mem_cons_of_mem x hyex⟩
        · rw [List.nodup_cons] at hnd
          push_neg at hnd
          by_cases hxr : x ∈ rest
          · exact Or.inl ⟨x, hxr, List.mem_cons_self x existing⟩
          · exact Or.inr (hnd hxr)

/-- If the new outputs are duplicate-free and disjoint from the set, the
conflict loop reports no conflict and leaves all of them inserted (the set
grows by the reversed list, since each insertion prepends). -/
theorem hasSpendConflictsGo_false (existing inserted : List Nat)
    (l : List Nat) (h1 : ∀ x ∈ l, x ∉ existing) (h2 : l.Nodup) :
    hasSpendConflictsGo existing inserted l
      = (false, l.reverse ++ existing) := by
  induction l generalizing existing inserted with
  | nil => rfl
  | cons x rest ih =>
      unfold hasSpendConflictsGo
      rw [if_neg (h1 x (List.mem_cons_self x rest))]
      rw [List.nodup_cons] at h2
      have h1' : ∀ y ∈ rest, y ∉ x :: existing := by
        intro y hy
        rw [List.mem_cons]
        push_neg
        constructor
        · intro heq
          rw [heq] at hy
          exact h2.1 hy
        · exact h1 y (List.mem_cons_of_mem x hy)
      rw [ih (x :: existing) (x :: inserted) h1' h2.2]
      simp [List.reverse_cons, List.append_assoc]

/-- `check_spend_conflicts` never touches the verified set or the rejected
map. -/
theorem checkSpendConflicts_preserves (s : Storage) (tx : UnminedTx) :
    (checkSpendConflicts s tx).2.verified = s.verified ∧
      (checkSpendConflicts s tx).2.rejected = s.rejected := by
  unfold checkSpendConflicts
  dsimp only
  split_ifs <;> exact ⟨rfl, rfl⟩

/-- When every category of the transaction's outputs is duplicate-free and
disjoint from its index set, `check_spend_conflicts` reports no conflict and
inserts all the outputs. -/
theorem checkSpendConflicts_false (s : Storage) (tx : UnminedTx)
    (h1 : (∀ x ∈ tx.spentOutpoints, x ∉ s.spentOutpoints) ∧
      tx.spentOutpoints.Nodup)
    (h2 : (∀ x ∈ tx.sproutNullifiers, x ∉ s.sproutNullifiers) ∧
      tx.sproutNullifiers.Nodup)
    (h3 : (∀ x ∈ tx.saplingNullifiers, x ∉ s.saplingNullifiers) ∧
      tx.saplingNullifiers.Nodup)
    (h4 : (∀ x ∈ tx.orchardNullifiers, x ∉ s.orchardNullifiers) ∧
      tx.orchardNullifiers.Nodup) :
    checkSpendConflicts s tx
      = (false,
         { s with
           spentOutpoints := tx.spentOutpoints.reverse ++ s.spentOutpoints
           sproutNullifiers :=
             tx.sproutNullifiers.reverse ++ s.sproutNullifiers
           saplingNullifiers :=
             tx.saplingNullifiers.reverse ++ s.saplingNullifiers
           orchardNullifiers :=
             tx.orchardNullifiers.reverse ++ s.orchardNullifiers }) := by
  have e1 := hasSpendConflictsGo_false s.spentOutpoints []
    tx.spentOutpoints h1.1 h1.2
  have e2 := hasSpendConflictsGo_false s.sproutNullifiers []
    tx.sproutNullifiers h2.1 h2.2
  have e3 := hasSpendConflictsGo_false s.saplingNullifiers []
    tx.saplingNullifiers h3.1 h3.2
  have e4 := hasSpendConflictsGo_false s.orchardNullifiers []
    tx.orchardNullifiers h4.1 h4.2
  unfold checkSpendConflicts hasSpendConflicts
  rw [e1]
  simp only []
  rw [e2, e3, e4]
  simp

/-- Conflict between transactions is symmetric. -/
theorem conflictingTxs_symm (t1 t2 : UnminedTx)
    (h : ConflictingTxs t1 t2) : ConflictingTxs t2 t1 := by
  rcases h with ⟨x, h1, h2⟩ | ⟨x, h1, h2⟩ | ⟨x, h1, h2⟩ | ⟨x, h1, h2⟩
  · exact Or.inl ⟨x, h2, h1⟩
  · exact Or.inr (Or.inl ⟨x, h2, h1⟩)
  · exact Or.inr (Or.inr (Or.inl ⟨x, h2, h1⟩))
  · exact Or.inr (Or.inr (Or.inr ⟨x, h2, h1⟩))

/-- When the transaction shares an element with the matching index set in
some category, `check_spend_conflicts` reports a conflict. -/
theorem checkSpendConflicts_true_of_share (s : Storage) (tx : UnminedTx)
    (h : (∃ x ∈ tx.spentOutpoints, x ∈ s.spentOutpoints) ∨
      (∃ x ∈ tx.sproutNullifiers, x ∈ s.sproutNullifiers) ∨
      (∃ x ∈ tx.saplingNullifiers, x ∈ s.saplingNullifiers) ∨
      (∃ x ∈ tx.orchardNullifiers, x ∈ s.orchardNullifiers)) :
    (checkSpendConflicts s tx).1 = true := by
  unfold checkSpendConflicts hasSpendConflicts
  dsimp only
  by_cases hb1 : (hasSpendConflictsGo s.spentOutpoints []
      tx.spentOutpoints).1 = true
  · simp [hasSpendConflicts, hb1]
  · have hns1 : ¬ ∃ x ∈ tx.spentOutpoints, x ∈ s.spentOutpoints :=
      fun hs => hb1 (hasSpendConflictsGo_true _ _ _ (Or.inl hs))
    rw [Bool.not_eq_true] at hb1
    rw [hb1]
    simp only [Bool.false_eq_true, if_false]
    by_cases hb2 : (hasSpendConflictsGo s.sproutNullifiers []
        tx.sproutNullifiers).1 = true
    · simp [hb2]
    · have hns2 : ¬ ∃ x ∈ tx.sproutNullifiers, x ∈ s.sproutNullifiers :=
        fun hs => hb2 (hasSpendConflictsGo_true _ _ _ (Or.inl hs))
      rw [Bool.not_eq_true] at hb2
      rw [hb2]
      simp only [Bool.false_eq_true, if_false]
      by_cases hb3 : (hasSpendConflictsGo s.saplingNullifiers []
          tx.saplingNullifiers).1 = true
      · simp [hb3]
      · have hns3 : ¬ ∃ x ∈ tx.saplingNullifiers, x ∈ s.saplingNullifiers :=
          fun hs => hb3 (hasSpendConflictsGo_true _ _ _ (Or.inl hs))
        rw [Bool.not_eq_true] at hb3
        rw [hb3]
        simp only [Bool.false_eq_true, if_false]
        rcases h with hs | hs | hs | hs
        · exact absurd hs hns1
        · exact absurd hs hns2
        · exact absurd hs hns3
        · exact hasSpendConflictsGo_true _ _ _ (Or.inl hs)

/-- Looking up the key just written into the rejected map returns the
written state. -/
theorem lookup_insertRejected_self (r : List (Nat × RejectionState))
    (i : Nat) (st : RejectionState) :
    lookupRejected (insertRejected r i st) i = some st := by
  unfold lookupRejected insertRejected
  simp

/-- Writing one key into the rejected map does not affect lookups of other
keys. -/
theorem lookup_insertRejected_ne (r : List (Nat × RejectionState))
    (i j : Nat) (st : RejectionState) (h : j ≠ i) :
    lookupRejected (insertRejected r i st) j = lookupRejected r j := by
  unfold lookupRejected insertRejected
  rw [List.find?_cons_of_neg _ (by simp [Ne.symm h])]
  induction r with
  | nil => rfl
  | cons entry rest ih =>
      rw [List.filter_cons]
      by_cases hei : entry.1 ≠ i
      · rw [if_pos (by simpa using hei)]
        by_cases he : entry.1 = j
        · rw [List.find?_cons_of_pos _ (by simp [he]),
            List.find?_cons_of_pos _ (by simp [he])]
        · rw [List.find?_cons_of_neg _ (by simp [he]),
            List.find?_cons_of_neg _ (by simp [he])]
          exact ih
      · push_neg at hei
        rw [if_neg (by simp [hei])]
        rw [List.find?_cons_of_neg _
          (by simp [hei]; exact Ne.symm h)]
        exact ih

/-- Inserting a well-formed transaction into the empty storage succeeds and
records the transaction and its outputs. -/
theorem insert_into_default (t : UnminedTx) (hwf : TxNodup t) :
    Storage.insert Storage.default t
      = (.ok t.id,
         { verified := [t], rejected := [],
           spentOutpoints := t.spentOutpoints.reverse,
           sproutNullifiers := t.sproutNullifiers.reverse,
           saplingNullifiers := t.saplingNullifiers.reverse,
           orchardNullifiers := t.orchardNullifiers.reverse }) := by
  obtain ⟨h1, h2, h3, h4⟩ := hwf
  have hc := checkSpendConflicts_false Storage.default t
    ⟨fun x _ => List.not_mem_nil x, h1⟩ ⟨fun x _ => List.not_mem_nil x, h2⟩
    ⟨fun x _ => List.not_mem_nil x, h3⟩ ⟨fun x _ => List.not_mem_nil x, h4⟩
  unfold Storage.insert
  have hlook : lookupRejected Storage.default.rejected t.id = none := rfl
  rw [hlook]
  dsimp only
  rw [if_neg (show t ∉ Storage.default.verified from List.not_mem_nil t)]
  rw [hc]
  simp [Storage.default, MEMPOOL_SIZE]

/-- When the rejection cache misses, the transaction is not already present,
and `check_spend_conflicts` reports a conflict, `insert` records the
transaction id as `SpendConflict` and leaves the verified set unchanged. -/
theorem insert_conflict (s : Storage) (tx : UnminedTx)
    (hrej : lookupRejected s.rejected tx.id = none)
    (hmem : tx ∉ s.verified)
    (hconf : (checkSpendConflicts s tx).1 = true) :
    (Storage.insert s tx).1 = .error .rejected ∧
    (Storage.insert s tx).2.verified = s.verified ∧
    (Storage.insert s tx).2.rejected
      = insertRejected s.rejected tx.id .spendConflict := by
  unfold Storage.insert
  rw [hrej]
  dsimp only
  rw [if_neg hmem, if_pos hconf]
  refine ⟨rfl, ?_, ?_⟩
  · exact (checkSpendConflicts_preserves s tx).1
  · rw [(checkSpendConflicts_preserves s tx).2]

/-- Inserting a conflicting pair: the first insert succeeds, the second is
rejected with `SpendConflict` recorded, leaving exactly the first in the
verified set. -/
theorem insert_pair_order (t1 t2 : UnminedTx) (hwf1 : TxNodup t1)
    (hne : t1 ≠ t2) (hc : ConflictingTxs t1 t2) :
    (Storage.insert Storage.default t1).1 = .ok t1.id ∧
    (Storage.insert (Storage.insert Storage.default t1).2 t2).1
      = .error .rejected ∧
    (Storage.insert (Storage.insert Storage.default t1).2 t2).2.verified
      = [t1] ∧
    lookupRejected
      (Storage.insert (Storage.insert Storage.default t1).2 t2).2.rejected
      t2.id = some .spendConflict := by
  have hins := insert_into_default t1 hwf1
  have h1 : (Storage.insert Storage.default t1).1 = .ok t1.id := by
    rw [hins]
  have hs1eq : (Storage.insert Storage.default t1).2
      = { verified := [t1], rejected := [],
          spentOutpoints := t1.spentOutpoints.reverse,
          sproutNullifiers := t1.sproutNullifiers.reverse,
          saplingNullifiers := t1.saplingNullifiers.reverse,
          orchardNullifiers := t1.orchardNullifiers.reverse } := by
    rw [hins]
  have hrej : lookupRejected (Storage.insert Storage.default t1).2.rejected
      t2.id = none := by
    rw [hs1eq]
    rfl
  have hmem : t2 ∉ (Storage.insert Storage.default t1).2.verified := by
    rw [hs1eq]
    simp only [List.mem_singleton]
    exact fun heq => hne heq.symm
  have hshare : (∃ x ∈ t2.spentOutpoints,
        x ∈ (Storage.insert Storage.default t1).2.spentOutpoints) ∨
      (∃ x ∈ t2.sproutNullifiers,
        x ∈ (Storage.insert Storage.default t1).2.sproutNullifiers) ∨
      (∃ x ∈ t2.saplingNullifiers,
        x ∈ (Storage.insert Storage.default t1).2.saplingNullifiers) ∨
      (∃ x ∈ t2.orchardNullifiers,
        x ∈ (Storage.insert Storage.default t1).2.orchardNullifiers) := by
    rw [hs1eq]
    rcases hc with ⟨x, hx1, hx2⟩ | ⟨x, hx1, hx2⟩ | ⟨x, hx1, hx2⟩ |
      ⟨x, hx1, hx2⟩
    · exact Or.inl ⟨x, hx2, by simpa using hx1⟩
    · exact Or.inr (Or.inl ⟨x, hx2, by simpa using hx1⟩)
    · exact Or.inr (Or.inr (Or.inl ⟨x, hx2, by simpa using hx1⟩))
    · exact Or.inr (Or.inr (Or.inr ⟨x, hx2, by simpa using hx1⟩))
  have hconf := checkSpendConflicts_true_of_share
    (Storage.insert Storage.default t1).2 t2 hshare
  have hres := insert_conflict (Storage.insert Storage.default t1).2 t2
    hrej hmem hconf
  refine ⟨h1, hres.1, ?_, ?_⟩
  · rw [hres.2.1, hs1eq]
  · rw [hres.2.2]
    exact lookup_insertRejected_self _ t2.id .spendConflict

/-- C3: for two distinct well-formed transactions that spend a common
transparent outpoint or reveal a common sprout, sapling, or orchard
nullifier, inserting both into an otherwise empty mempool storage in either
order succeeds for the first, errors for the second, leaves exactly the
first in the verified set, and records the second's id in the rejected map
with reason `SpendConflict`. -/
theorem mempool_spend_conflict_either_order (t1 t2 : UnminedTx)
    (hwf1 : TxNodup t1) (hwf2 : TxNodup t2) (hne : t1 ≠ t2)
    (hc : ConflictingTxs t1 t2) :
    ((Storage.insert Storage.default t1).1 = .ok t1.id ∧
     (Storage.insert (Storage.insert Storage.default t1).2 t2).1
       = .error .rejected ∧
     (Storage.insert (Storage.insert Storage.default t1).2 t2).2.verified
       = [t1] ∧
     lookupRejected
       (Storage.insert (Storage.insert Storage.default t1).2 t2).2.rejected
       t2.id = some .spendConflict) ∧
    ((Storage.insert Storage.default t2).1 = .ok t2.id ∧
     (Storage.insert (Storage.insert Storage.default t2).2 t1).1
       = .error .rejected ∧
     (Storage.insert (Storage.insert Storage.default t2).2 t1).2.verified
       = [t2] ∧
     lookupRejected
       (Storage.insert (Storage.insert Storage.default t2).2 t1).2.rejected
       t1.id = some .spendConflict) :=
  ⟨insert_pair_order t1 t2 hwf1 hne hc,
   insert_pair_order t2 t1 hwf2 (Ne.symm hne)
     (conflictingTxs_symm t1 t2 hc)⟩

/-- Witness for C3: two transactions spending the common outpoint `10`. -/
theorem mempool_spend_conflict_either_order_witness :
    (Storage.insert (Storage.insert Storage.default
        ⟨1, [10], [], [], []⟩).2 ⟨2, [10], [], [], []⟩).2.verified
      = [⟨1, [10], [], [], []⟩] ∧
    lookupRejected (Storage.insert (Storage.insert Storage.default
        ⟨1, [10], [], [], []⟩).2 ⟨2, [10], [], [], []⟩).2.rejected 2
      = some .spendConflict :=
  ⟨(mempool_spend_conflict_either_order ⟨1, [10], [], [], []⟩
      ⟨2, [10], [], [], []⟩ (by decide) (by decide) (by decide)
      (by decide)).1.2.2.1,
   (mempool_spend_conflict_either_order ⟨1, [10], [], [], []⟩
      ⟨2, [10], [], [], []⟩ (by decide) (by decide) (by decide)
      (by decide)).1.2.2.2⟩

/-- `insert` returns the cached rejection when the id is in the rejected
map, leaving the storage unchanged. -/
theorem insert_eq_of_rejected (s : Storage) (tx : UnminedTx)
    (st : RejectionState)
    (hrej : lookupRejected s.rejected tx.id = some st) :
    Storage.insert s tx = (.error (mempoolErrorOfState st), s) := by
  unfold Storage.insert
  rw [hrej]

/-- `insert` of a transaction already in the verified set (with its id not
in the rejected map) returns `InMempool` and leaves the storage unchanged. -/
theorem insert_eq_of_mem (s : Storage) (tx : UnminedTx)
    (hrej : lookupRejected s.rejected tx.id = none)
    (hmem : tx ∈ s.verified) :
    Storage.insert s tx = (.error .inMempool, s) := by
  unfold Storage.insert
  rw [hrej]
  dsimp only
  rw [if_pos hmem]

/-- The success branch of `insert` when the pool overflows: the verified
set is truncated to `MEMPOOL_SIZE` and the evicted tail is recorded as
`Excess`. -/
theorem insert_success_evict (s : Storage) (tx : UnminedTx)
    (hrej : lookupRejected s.rejected tx.id = none)
    (hmem : tx ∉ s.verified)
    (hconf : (checkSpendConflicts s tx).1 = false)
    (hbig : (tx :: s.verified).length > MEMPOOL_SIZE) :
    Storage.insert s tx =
      (.ok tx.id,
       { (checkSpendConflicts s tx).2 with
         verified := List.take MEMPOOL_SIZE (tx :: s.verified)
         rejected := List.foldl
           (fun rejected evictedTx =>
             insertRejected rejected evictedTx.id RejectionState.excess)
           s.rejected (List.drop MEMPOOL_SIZE (tx :: s.verified)) }) := by
  unfold Storage.insert
  rw [hrej]
  dsimp only
  rw [if_neg hmem, hconf]
  simp only [Bool.false_eq_true, if_false]
  rw [(checkSpendConflicts_preserves s tx).1,
    (checkSpendConflicts_preserves s tx).2]
  rw [if_pos hbig]

/-- The success branch of `insert` when the pool does not overflow: the
transaction is pushed at the front and nothing is evicted. -/
theorem insert_success_fit (s : Storage) (tx : UnminedTx)
    (hrej : lookupRejected s.rejected tx.id = none)
    (hmem : tx ∉ s.verified)
    (hconf : (checkSpendConflicts s tx).1 = false)
    (hfit : ¬ (tx :: s.verified).length > MEMPOOL_SIZE) :
    Storage.insert s tx =
      (.ok tx.id,
       { (checkSpendConflicts s tx).2 with
         verified := tx :: s.verified
         rejected := s.rejected }) := by
  unfold Storage.insert
  rw [hrej]
  dsimp only
  rw [if_neg hmem, hconf]
  simp only [Bool.false_eq_true, if_false]
  rw [(checkSpendConflicts_preserves s tx).1,
    (checkSpendConflicts_preserves s tx).2]
  rw [if_neg hfit]

/-- C6 as amended: a successful insert into a storage whose verified set is
exactly at `MEMPOOL_SIZE` leaves the verified set at exactly `MEMPOOL_SIZE`
transactions, and every transaction evicted to make room is recorded in the
rejected map with reason `Excess` (the code's FIFO-eviction reason; the
`State` enum has no random-eviction variant). -/
theorem mempool_insert_at_capacity_excess (s : Storage) (tx : UnminedTx)
    (hlen : s.verified.length = MEMPOOL_SIZE)
    (hok : (Storage.insert s tx).1 = .ok tx.id) :
    (Storage.insert s tx).2.verified.length = MEMPOOL_SIZE ∧
    ∀ t ∈ s.verified, t ∉ (Storage.insert s tx).2.verified →
      lookupRejected (Storage.insert s tx).2.rejected t.id
        = some .excess := by
  cases hrej : lookupRejected s.rejected tx.id with
  | some st =>
      rw [insert_eq_of_rejected s tx st hrej] at hok
      simp at hok
  | none =>
      by_cases hmem : tx ∈ s.verified
      · rw [insert_eq_of_mem s tx hrej hmem] at hok
        simp at hok
      · by_cases hconf : (checkSpendConflicts s tx).1 = true
        · rw [(insert_conflict s tx hrej hmem hconf).1] at hok
          simp at hok
        · rw [Bool.not_eq_true] at hconf
          have hbig : (tx :: s.verified).length > MEMPOOL_SIZE := by
            rw [List.length_cons, hlen]
            exact Nat.lt_succ_self MEMPOOL_SIZE
          rw [insert_success_evict s tx hrej hmem hconf hbig]
          obtain ⟨v0, v1, hvv⟩ := List.length_eq_two.mp hlen
          constructor
          · show (List.take MEMPOOL_SIZE (tx :: s.verified)).length
              = MEMPOOL_SIZE
            rw [List.length_take, List.length_cons, hlen]
            exact Nat.min_eq_left (Nat.le_succ MEMPOOL_SIZE)
          · intro t ht hnot
            rw [hvv] at ht hnot ⊢
            replace hnot : t ∉ [tx, v0] := hnot
            have ht1 : t = v1 := by
              rcases List.mem_cons.mp ht with h0 | hin
              · exact absurd (by rw [h0]; simp : t ∈ [tx, v0]) hnot
              · simpa using hin
            rw [ht1]
            show lookupRejected
              (insertRejected s.rejected v1.id RejectionState.excess) v1.id
              = some RejectionState.excess
            exact lookup_insertRejected_self _ v1.id .excess

/-- Witness for the amended C6: a storage holding exactly two transactions
(the capacity) accepts a third, stays at two transactions, and records the
evicted transaction as `Excess`. -/
theorem mempool_insert_at_capacity_excess_witness :
    (Storage.insert
        { verified := [⟨2, [], [], [], []⟩, ⟨1, [], [], [], []⟩],
          rejected := [], spentOutpoints := [], sproutNullifiers := [],
          saplingNullifiers := [], orchardNullifiers := [] }
        ⟨3, [], [], [], []⟩).2.verified.length = MEMPOOL_SIZE ∧
    ∀ t ∈ [(⟨2, [], [], [], []⟩ : UnminedTx), ⟨1, [], [], [], []⟩],
      t ∉ (Storage.insert
        { verified := [⟨2, [], [], [], []⟩, ⟨1, [], [], [], []⟩],
          rejected := [], spentOutpoints := [], sproutNullifiers := [],
          saplingNullifiers := [], orchardNullifiers := [] }
        ⟨3, [], [], [], []⟩).2.verified →
      lookupRejected (Storage.insert
        { verified := [⟨2, [], [], [], []⟩, ⟨1, [], [], [], []⟩],
          rejected := [], spentOutpoints := [], sproutNullifiers := [],
          saplingNullifiers := [], orchardNullifiers := [] }
        ⟨3, [], [], [], []⟩).2.rejected t.id = some .excess :=
  mempool_insert_at_capacity_excess
    { verified := [⟨2, [], [], [], []⟩, ⟨1, [], [], [], []⟩],
      rejected := [], spentOutpoints := [], sproutNullifiers := [],
      saplingNullifiers := [], orchardNullifiers := [] }
    ⟨3, [], [], [], []⟩ (by decide) (by decide)

/-- C6 counterexample: inserting a third transaction into a full mempool
evicts the oldest transaction in FIFO order and records it with reason
`Excess`; the code's `State` enum has no `RandomlyEvicted` variant and the
eviction is deterministic, not ZIP-401 weighted-random. -/
theorem mempool_eviction_reason_counterexample :
    (Storage.insert (Storage.insert (Storage.insert Storage.default
        ⟨1, [], [], [], []⟩).2 ⟨2, [], [], [], []⟩).2
        ⟨3, [], [], [], []⟩).2.verified
      = [⟨3, [], [], [], []⟩, ⟨2, [], [], [], []⟩] ∧
    lookupRejected (Storage.insert (Storage.insert (Storage.insert
        Storage.default ⟨1, [], [], [], []⟩).2 ⟨2, [], [], [], []⟩).2
        ⟨3, [], [], [], []⟩).2.rejected 1
      = some RejectionState.excess := by
  decide

/-- C7: inserting a transaction that is already in the verified set of a
well-formed storage returns the `InMempool` error and leaves the whole
storage unchanged (the verified set and its order, the rejected map, and the
four conflict-index sets); in particular the existing entry is not
refreshed. -/
theorem mempool_insert_present_unchanged (s : Storage) (tx : UnminedTx)
    (hgood : GoodStorage s) (hmem : tx ∈ s.verified) :
    Storage.insert s tx = (.error .inMempool, s) :=
  insert_eq_of_mem s tx (hgood.2.2 tx hmem) hmem

/-- Witness for C7: re-inserting the only transaction of a one-element
storage returns `InMempool` and changes nothing. -/
theorem mempool_insert_present_unchanged_witness :
    Storage.insert
        { verified := [⟨1, [5], [], [], []⟩], rejected := [],
          spentOutpoints := [5], sproutNullifiers := [],
          saplingNullifiers := [], orchardNullifiers := [] }
        ⟨1, [5], [], [], []⟩
      = (.error .inMempool,
         { verified := [⟨1, [5], [], [], []⟩], rejected := [],
           spentOutpoints := [5], sproutNullifiers := [],
           saplingNullifiers := [], orchardNullifiers := [] }) :=
  mempool_insert_present_unchanged
    { verified := [⟨1, [5], [], [], []⟩], rejected := [],
      spentOutpoints := [5], sproutNullifiers := [],
      saplingNullifiers := [], orchardNullifiers := [] }
    ⟨1, [5], [], [], []⟩ (by decide) (by decide)

/-- C10 failing input: inserting three transactions with distinct outpoints
into the capacity-2 storage evicts the first transaction, but its spent
outpoint `10` is never removed from the conflict-index set: the eviction
path of `insert` does not call `remove_outputs`, so the index sets contain
an outpoint spent by no transaction in the verified set. -/
theorem mempool_eviction_leaves_stale_outpoints :
    (Storage.insert (Storage.insert (Storage.insert Storage.default
        ⟨1, [10], [], [], []⟩).2 ⟨2, [20], [], [], []⟩).2
        ⟨3, [30], [], [], []⟩).2.verified
      = [⟨3, [30], [], [], []⟩, ⟨2, [20], [], [], []⟩] ∧
    (10 : Nat) ∈ (Storage.insert (Storage.insert (Storage.insert
        Storage.default ⟨1, [10], [], [], []⟩).2 ⟨2, [20], [], [], []⟩).2
        ⟨3, [30], [], [], []⟩).2.spentOutpoints ∧
    ∀ t ∈ (Storage.insert (Storage.insert (Storage.insert Storage.default
        ⟨1, [10], [], [], []⟩).2 ⟨2, [20], [], [], []⟩).2
        ⟨3, [30], [], [], []⟩).2.verified,
      (10 : Nat) ∉ t.spentOutpoints := by
  decide

/-- Recording a batch of evicted ids does not affect lookups of other
ids. -/
theorem lookup_foldl_insertRejected (r : List (Nat × RejectionState))
    (l : List UnminedTx) (j : Nat) (hj : ∀ e ∈ l, e.id ≠ j) :
    lookupRejected
        (l.foldl
          (fun rejected evictedTx =>
            insertRejected rejected evictedTx.id RejectionState.excess) r) j
      = lookupRejected r j := by
  induction l generalizing r with
  | nil => rfl
  | cons e rest ih =>
      show lookupRejected
          (rest.foldl _ (insertRejected r e.id RejectionState.excess)) j = _
      rw [ih (insertRejected r e.id RejectionState.excess)
        (fun x hx => hj x (List.mem_cons_of_mem e hx))]
      exact lookup_insertRejected_ne r e.id j RejectionState.excess
        (fun he => hj e (List.mem_cons_self e rest) he.symm)

/-- The empty storage is well formed. -/
theorem goodStorage_default : GoodStorage Storage.default := by
  decide

/-- `clear` always yields a well-formed storage. -/
theorem goodStorage_clear (s : Storage) : GoodStorage (Storage.clear s) :=
  goodStorage_default

/-- `remove` preserves well-formedness. -/
theorem goodStorage_remove (s : Storage) (txId : Nat)
    (h : GoodStorage s) : GoodStorage (Storage.remove s txId).2 := by
  obtain ⟨hnd, hinj, hnr⟩ := h
  unfold Storage.remove
  cases hfind : s.verified.find? (fun tx => tx.id = txId) with
  | none => exact ⟨hnd, hinj, hnr⟩
  | some tx =>
      dsimp only
      refine ⟨?_, ?_, ?_⟩
      · exact List.Nodup.filter _ hnd
      · intro t1 ht1 t2 ht2
        exact hinj t1 (List.mem_of_mem_filter ht1) t2
          (List.mem_of_mem_filter ht2)
      · intro t ht
        exact hnr t (List.mem_of_mem_filter ht)

/-- `insert` preserves well-formedness, provided the inserted transaction's
id does not collide with a different verified transaction (ids are
collision-resistant hashes of the transaction in the source). -/
theorem goodStorage_insert (s : Storage) (tx : UnminedTx)
    (h : GoodStorage s)
    (hid : ∀ t ∈ s.verified, t.id = tx.id → t = tx) :
    GoodStorage (Storage.insert s tx).2 := by
  obtain ⟨hnd, hinj, hnr⟩ := h
  cases hrej : lookupRejected s.rejected tx.id with
  | some st =>
      rw [insert_eq_of_rejected s tx st hrej]
      exact ⟨hnd, hinj, hnr⟩
  | none =>
      by_cases hmem : tx ∈ s.verified
      · rw [insert_eq_of_mem s tx hrej hmem]
        exact ⟨hnd, hinj, hnr⟩
      · have hndall : (tx :: s.verified).Nodup :=
          List.nodup_cons.mpr ⟨hmem, hnd⟩
        have hinjall : ∀ t1 ∈ tx :: s.verified, ∀ t2 ∈ tx :: s.verified,
            t1.id = t2.id → t1 = t2 := by
          intro t1 ht1 t2 ht2 hide
          rcases List.mem_cons.mp ht1 with h1 | h1 <;>
            rcases List.mem_cons.mp ht2 with h2 | h2
          · rw [h1, h2]
          · rw [h1] at hide ⊢
            exact (hid t2 h2 hide.symm).symm
          · rw [h2] at hide ⊢
            exact hid t1 h1 hide
          · exact hinj t1 h1 t2 h2 hide
        by_cases hconf : (checkSpendConflicts s tx).1 = true
        · have hres := insert_conflict s tx hrej hmem hconf
          refine ⟨?_, ?_, ?_⟩
          · rw [hres.2.1]
            exact hnd
          · rw [hres.2.1]
            exact hinj
          · intro t ht
            rw [hres.2.1] at ht
            rw [hres.2.2]
            have hne : t.id ≠ tx.id := by
              intro he
              exact hmem (hid t ht he ▸ ht)
            rw [lookup_insertRejected_ne s.rejected tx.id t.id _ hne]
            exact hnr t ht
        · rw [Bool.not_eq_true] at hconf
          by_cases hbig : (tx :: s.verified).length > MEMPOOL_SIZE
          · rw [insert_success_evict s tx hrej hmem hconf hbig]
            refine ⟨?_, ?_, ?_⟩
            · exact List.Nodup.sublist
                (List.take_sublist MEMPOOL_SIZE (tx :: s.verified)) hndall
            · intro t1 ht1 t2 ht2
              exact hinjall t1 (List.mem_of_mem_take ht1) t2
                (List.mem_of_mem_take ht2)
            · intro t ht
              have htall : t ∈ tx :: s.verified := List.mem_of_mem_take ht
              have hids : ∀ e ∈ List.drop MEMPOOL_SIZE (tx :: s.verified),
                  e.id ≠ t.id := by
                intro e he hide
                have heall : e ∈ tx :: s.verified := List.mem_of_mem_drop he
                have : e = t := hinjall e heall t htall hide
                rw [this] at he
                exact List.disjoint_take_drop hndall
                  (Nat.le_refl MEMPOOL_SIZE) ht he
              show lookupRejected
                (List.foldl
                  (fun rejected evictedTx =>
                    insertRejected rejected evictedTx.id
                      RejectionState.excess)
                  s.rejected (List.drop MEMPOOL_SIZE (tx :: s.verified)))
                t.id = none
              rw [lookup_foldl_insertRejected s.rejected _ t.id hids]
              rcases List.mem_cons.mp htall with h1 | h1
              · rw [h1]
                exact hrej
              · exact hnr t h1
          · rw [insert_success_fit s tx hrej hmem hconf hbig]
            refine ⟨hndall, hinjall, ?_⟩
            intro t ht
            rcases List.mem_cons.mp ht with h1 | h1
            · rw [h1]
              exact hrej
            · exact hnr t h1
